import Mathlib

/-!
# Verification of the lyria-dj streaming playback engine

A shallow embedding of the core playback engine of the repository:
`src/services/LiveMusicService.js` (session management, reconnect policy,
audio-chunk scheduling, prompt filtering) and
`src/services/SimpleSynthService.js` (the local fallback synthesizer).

Times and durations are modelled as rationals (seconds); backoff delays as
naturals (milliseconds).  Asynchronous remote calls that may fail are
modelled by an explicit success flag.  Side effects (events dispatched,
commands sent to the remote session or the fallback engine) are modelled as
an explicit list of emitted commands returned next to the updated state.
-/

namespace LyriaDJ

/-- Playback states of `LiveMusicService.playbackState` / the fallback
synthesizer (the strings 'stopped', 'loading', 'playing', 'paused'). -/
inductive PlaybackState
  | stopped
  | loading
  | playing
  | paused
deriving DecidableEq, Repr

/-- Values of `LiveMusicService.activeEngine` ('none', 'lyria', 'fallback'). -/
inductive Engine
  | none
  | lyria
  | fallback
deriving DecidableEq, Repr

/-- A weighted prompt `{ text, weight }`. -/
structure Prompt where
  text : String
  weight : ℚ
deriving DecidableEq, Repr

/-! ## Audio chunk scheduling (`processAudioChunks`, lines 392-420)

The per-chunk scheduling arithmetic of `processAudioChunks`:

* `this.bufferTime = 1.5` is the lookahead (`bufferTime` below);
* a chunk arriving with `nextStartTime === 0` first sets
  `nextStartTime = audioContext.currentTime + bufferTime` (`initStart`);
* if `nextStartTime < currentTime - 0.1` the schedule is reset to
  `currentTime` (`resetStart`);
* the chunk is passed to `source.start(nextStartTime)` (`schedArg`) and
  afterwards `nextStartTime += audioBuffer.duration` (`schedStep`).

`effStart` models the output device: per the Web Audio specification,
`AudioBufferSourceNode.start(when)` with `when` earlier than the context's
current time begins playing immediately, i.e. at `max when now`. -/

/-- `this.bufferTime = 1.5` — the lookahead, in seconds. -/
def bufferTime : ℚ := 3 / 2

/-- The starvation tolerance `0.1` seconds in
`if (this.nextStartTime < this.audioContext.currentTime - 0.1)`. -/
def behindTol : ℚ := 1 / 10

/-- First-chunk initialisation: `if (this.nextStartTime === 0)
this.nextStartTime = this.audioContext.currentTime + this.bufferTime`. -/
def initStart (st now : ℚ) : ℚ :=
  if st = 0 then now + bufferTime else st

/-- Starvation reset: `if (this.nextStartTime < currentTime - 0.1)
this.nextStartTime = currentTime`. -/
def resetStart (t1 now : ℚ) : ℚ :=
  if t1 < now - behindTol then now else t1

/-- The value passed to `source.start(...)` for a chunk arriving at `now`
with scheduler state `st`. -/
def schedArg (st now : ℚ) : ℚ :=
  resetStart (initStart st now) now

/-- One iteration of the `for (const chunk of audioChunks)` loop body:
given `nextStartTime = st` and a chunk `(now, dur)` (arrival time and
decoded duration), returns the new `nextStartTime` and the scheduled
`(start, duration)` pair. -/
def schedStep (st : ℚ) (c : ℚ × ℚ) : ℚ × (ℚ × ℚ) :=
  (schedArg st c.1 + c.2, (schedArg st c.1, c.2))

/-- The effective start time on the output device:
`AudioBufferSourceNode.start(when)` clamps a past `when` to the current
time, so audible playback begins at `max when now`. -/
def effStart (arg now : ℚ) : ℚ := max arg now

/-- Run the scheduling loop over a list of chunks `(arrival, duration)`,
returning the final `nextStartTime` and the list of scheduled
`(start, duration)` pairs, in order. -/
def schedRun : ℚ → List (ℚ × ℚ) → ℚ × List (ℚ × ℚ)
  | st, [] => (st, [])
  | st, c :: cs =>
    let p := schedStep st c
    let r := schedRun p.1 cs
    (r.1, p.2 :: r.2)

/-! ## The LiveMusicService state

The mutable fields of the `LiveMusicService` instance that the core logic
reads and writes, straight from the constructor (lines 12-32).  The
promise-valued `session`/`sessionPromise` pair is abstracted to the single
flag `hasSession` (a live session reference exists); the Web Audio nodes
are outside the model. -/
structure LMState where
  playbackState : PlaybackState
  nextStartTime : ℚ
  prompts : List Prompt
  filteredPrompts : List String
  useFallback : Bool
  activeEngine : Engine
  retryCount : ℕ
  maxRetries : ℕ
  isReconnecting : Bool
  connectionError : Bool
  hasSession : Bool
deriving DecidableEq, Repr

/-- Observable effects of one operation: events dispatched on the service
(`dispatchEvent`), commands sent to the remote session (`sess...`),
commands forwarded to the fallback synthesizer (`fb...`), and the
`setTimeout` that schedules a reconnect attempt (`scheduleRetry`). -/
inductive Emit
  | evPlaybackState (st : PlaybackState)
  | evEngineChanged (e : Engine)
  | evErrorMsg (msg : String)
  | evReconnecting (attempt maxR delayMs : ℕ)
  | scheduleRetry (delayMs : ℕ)
  | fbSetPrompts (ps : List Prompt)
  | fbSetParams
  | fbSetTempo (bpm : ℚ)
  | fbPlay
  | fbPause
  | fbStop
  | fbPlayPause
  | sessSetPrompts (ps : List (String × ℚ))
  | sessSetConfig
  | sessPlay
  | sessPause
  | sessStop
deriving DecidableEq, Repr

/-- `setPlaybackState(state)` (lines 451-454): store the state and dispatch
a 'playback-state-changed' event. -/
def setPlaybackState (s : LMState) (st : PlaybackState) : LMState × List Emit :=
  ({ s with playbackState := st }, [Emit.evPlaybackState st])

/-- The error message dispatched when no active prompt remains
(line 474). -/
def promptRequiredMsg : String := "At least one active prompt is required."

/-- `handleFinalFailure(reason)` (lines 311-348): mark the connection
failed, switch permanently to the fallback engine, reset the retry state,
clean up the session and scheduling state, and — when playback was active
or pending — replay the stored prompts into the fallback synthesizer and
start it; otherwise settle in 'stopped'. -/
def handleFinalFailure (s : LMState) (reason : String) : LMState × List Emit :=
  let s1 : LMState :=
    { s with connectionError := true, useFallback := true,
             activeEngine := Engine.fallback, retryCount := 0,
             isReconnecting := false, hasSession := false,
             nextStartTime := 0 }
  let head : List Emit :=
    [Emit.evEngineChanged Engine.fallback, Emit.evErrorMsg reason] ++
      (if s.hasSession then [Emit.sessStop] else [])
  if s1.playbackState = PlaybackState.playing ∨
      s1.playbackState = PlaybackState.loading then
    let p := setPlaybackState s1 PlaybackState.playing
    (p.1, head ++ [Emit.fbSetPrompts s1.prompts, Emit.fbPlay] ++ p.2)
  else
    let p := setPlaybackState s1 PlaybackState.stopped
    (p.1, head ++ p.2)

/-- `attemptAutoReconnect(reason)` (lines 275-306), scheduling part: bail
out if a retry is already in flight, otherwise set the flag, bump the
counter, announce the attempt and schedule the retry after
`Math.pow(2, this.retryCount - 1) * 1000` milliseconds.  The body of the
scheduled timer is modelled separately (see `RState`). -/
def attemptAutoReconnect (s : LMState) : LMState × List Emit :=
  if s.isReconnecting then (s, [])
  else
    let s1 := { s with isReconnecting := true, retryCount := s.retryCount + 1 }
    let delay := 2 ^ (s1.retryCount - 1) * 1000
    (s1, [Emit.evReconnecting s1.retryCount s1.maxRetries delay,
          Emit.scheduleRetry delay])

/-- `handleConnectionFailure(reason)` (lines 256-270): null the session,
then either fail permanently (`retryCount >= maxRetries`) or attempt an
auto-reconnect. -/
def handleConnectionFailure (s : LMState) (reason : String) :
    LMState × List Emit :=
  let s0 := { s with hasSession := false }
  if s0.maxRetries ≤ s0.retryCount then handleFinalFailure s0 reason
  else attemptAutoReconnect s0

/-- `pause()` (lines 591-602): delegate to the fallback when engaged;
otherwise pause the session (if any), enter 'paused', and reset the
scheduling state (`nextStartTime = 0`, fresh output node). -/
def pause (s : LMState) : LMState × List Emit :=
  if s.useFallback then (s, [Emit.fbPause])
  else
    let sess := if s.hasSession then [Emit.sessPause] else []
    let p := setPlaybackState s PlaybackState.paused
    ({ p.1 with nextStartTime := 0 }, sess ++ p.2)

/-- `stop()` (lines 607-625): delegate to the fallback when engaged;
otherwise stop the session (if any), enter 'stopped', and discard the
session and scheduling state. -/
def stop (s : LMState) : LMState × List Emit :=
  if s.useFallback then (s, [Emit.fbStop])
  else
    let sess := if s.hasSession then [Emit.sessStop] else []
    let p := setPlaybackState s PlaybackState.stopped
    ({ p.1 with nextStartTime := 0, hasSession := false }, sess ++ p.2)

/-- The filter applied in `setWeightedPrompts` (lines 468-470):
`prompts.filter(p => !this.filteredPrompts.has(p.text) && p.weight > 0)`. -/
def activeSubset (filtered : List String) (ps : List Prompt) : List Prompt :=
  ps.filter (fun p => !filtered.contains p.text && decide ((0 : ℚ) < p.weight))

/-- `setWeightedPrompts(prompts)` (lines 459-499): store the prompts;
forward wholesale to the fallback when engaged; otherwise compute the
active subset, and if it is empty while playing, raise an error and
pause.  With no session, defer silently.  Otherwise send the active subset
to the session; `remoteOk` models whether `session.setWeightedPrompts`
resolves — on rejection an error is dispatched and the service pauses. -/
def setWeightedPrompts (s : LMState) (ps : List Prompt) (remoteOk : Bool) :
    LMState × List Emit :=
  let s1 := { s with prompts := ps }
  if s1.useFallback then (s1, [Emit.fbSetPrompts ps])
  else
    let active := activeSubset s1.filteredPrompts ps
    if active = [] ∧ s1.playbackState = PlaybackState.playing then
      let p := pause s1
      (p.1, Emit.evErrorMsg promptRequiredMsg :: p.2)
    else if s1.hasSession = false then (s1, [])
    else if remoteOk then
      (s1, [Emit.sessSetPrompts (active.map fun p => (p.text, p.weight))])
    else
      let p := pause s1
      (p.1, Emit.evErrorMsg "Failed to set prompts" :: p.2)

/-- `setTempo(bpm)` (lines 504-511): forwarded to the fallback when
engaged; a remote tempo change needs a stop/play cycle, so nothing is sent
to the session. -/
def setTempoLM (s : LMState) (bpm : ℚ) : LMState × List Emit :=
  if s.useFallback then (s, [Emit.fbSetTempo bpm]) else (s, [])

/-- `setMusicConfig(config)` (lines 517-538): forwarded to the fallback
when engaged, deferred with no session, otherwise sent to the session (the
config payload itself is not needed by any claim and is elided). -/
def setMusicConfig (s : LMState) : LMState × List Emit :=
  if s.useFallback then (s, [Emit.fbSetParams])
  else if s.hasSession = false then (s, [])
  else (s, [Emit.sessSetConfig])

/-- `play()` (lines 543-586): delegate to the fallback when engaged;
otherwise enter 'loading', establish/reuse the session, send the stored
prompts verbatim (`this.prompts.map(...)` — no filtering), and call
`session.play()`.  `connectOk` models whether the session handshake and
play resolve; on failure an error is dispatched and `stop()` runs. -/
def play (s : LMState) (connectOk : Bool) : LMState × List Emit :=
  if s.useFallback then (s, [Emit.fbPlay])
  else
    let p := setPlaybackState s PlaybackState.loading
    if connectOk then
      let s1 := { p.1 with hasSession := true }
      let sendP : List Emit :=
        if s1.prompts = [] then []
        else [Emit.sessSetPrompts (s1.prompts.map fun q => (q.text, q.weight))]
      (s1, p.2 ++ sendP ++ [Emit.sessPlay])
    else
      let q := stop p.1
      (q.1, p.2 ++ [Emit.evErrorMsg "Failed to start"] ++ q.2)

/-- `playPause()` (lines 630-644): delegate to the fallback when engaged;
otherwise pause when 'playing', play from 'paused'/'stopped', stop from
'loading'. -/
def playPause (s : LMState) (connectOk : Bool) : LMState × List Emit :=
  if s.useFallback then (s, [Emit.fbPlayPause])
  else
    match s.playbackState with
    | PlaybackState.playing => pause s
    | PlaybackState.paused => play s connectOk
    | PlaybackState.stopped => play s connectOk
    | PlaybackState.loading => stop s

/-- A chunk of `message.serverContent.audioChunks`: whether `chunk.data`
is present, the context time at which the loop body processes it, and the
decoded buffer duration. -/
structure Chunk where
  hasData : Bool
  now : ℚ
  dur : ℚ
deriving DecidableEq, Repr

/-- `processAudioChunks(audioChunks)` (lines 392-420): drop the whole
batch while 'paused' or 'stopped'; otherwise run the scheduling loop over
the chunks that carry data, updating `nextStartTime` and emitting the
scheduled `(start, duration)` pairs. -/
def processAudioChunks (s : LMState) (chunks : List Chunk) :
    LMState × List (ℚ × ℚ) :=
  if s.playbackState = PlaybackState.paused ∨
      s.playbackState = PlaybackState.stopped then (s, [])
  else
    let cs := (chunks.filter (·.hasData)).map fun c => (c.now, c.dur)
    let r := schedRun s.nextStartTime cs
    ({ s with nextStartTime := r.1 }, r.2)

/-- `reconnect()` (lines 353-387), exposed to the user by the UI's
fallback-mode Reconnect button: the session references are discarded and
a fresh connection is attempted; `ok` models whether the handshake
succeeds.  On success the `setupComplete` handler (lines 197-207) resets
the retry state and switches the engine back to 'lyria'
(`useFallback = false`), the stored prompts are re-sent through
`setWeightedPrompts`, and — when playback was 'playing' on entry — the
session resumes directly (`session.play()`, then state 'playing').  On
failure it returns false with the connection marked failed.  The guard
`this.fallbackService` (line 361) is always undefined — the class never
assigns that field — so the fallback-stop branch is dead code and not
modelled. -/
def reconnectOp (s : LMState) (ok : Bool) : LMState × List Emit :=
  let wasPlaying := s.playbackState = PlaybackState.playing
  if ok then
    let s1 : LMState :=
      { s with connectionError := false, retryCount := 0,
               isReconnecting := false, activeEngine := Engine.lyria,
               useFallback := false, hasSession := true }
    let p2 := setWeightedPrompts s1 s1.prompts true
    if wasPlaying then
      let p3 := setPlaybackState p2.1 PlaybackState.playing
      (p3.1, Emit.evEngineChanged Engine.lyria ::
        (p2.2 ++ Emit.sessPlay :: p3.2))
    else (p2.1, Emit.evEngineChanged Engine.lyria :: p2.2)
  else
    ({ s with hasSession := false, connectionError := true }, [])

/-- The user-triggered operations on the service, including the explicit
reconnect request that the UI exposes (as a Reconnect button) while the
fallback engine is active. -/
inductive UserEvent
  | uPlay (ok : Bool)
  | uPause
  | uStop
  | uPlayPause (ok : Bool)
  | uSetPrompts (ps : List Prompt) (ok : Bool)
  | uSetTempo (bpm : ℚ)
  | uSetConfig
  | uReconnect (ok : Bool)
deriving Repr

/-- Dispatch one user operation. -/
def applyUser (s : LMState) : UserEvent → LMState × List Emit
  | UserEvent.uPlay ok => play s ok
  | UserEvent.uPause => pause s
  | UserEvent.uStop => stop s
  | UserEvent.uPlayPause ok => playPause s ok
  | UserEvent.uSetPrompts ps ok => setWeightedPrompts s ps ok
  | UserEvent.uSetTempo bpm => setTempoLM s bpm
  | UserEvent.uSetConfig => setMusicConfig s
  | UserEvent.uReconnect ok => reconnectOp s ok

/-- Run a sequence of user operations, collecting all emissions. -/
def runUser : LMState → List UserEvent → LMState × List Emit
  | s, [] => (s, [])
  | s, e :: es =>
    let p := applyUser s e
    let r := runUser p.1 es
    (r.1, p.2 ++ r.2)

/-! ## The fallback synthesizer (`SimpleSynthService.js`)

Only the tempo/clock logic is needed by the claims: `setTempo`
(lines 96-102) and the timing constants of `startLoop` (lines 166-204). -/

/-- The fields of `SimpleSynthService` relevant to the tempo clock. -/
structure SynthState where
  tempo : ℚ
  playbackState : PlaybackState
deriving DecidableEq, Repr

/-- Clock commands issued by the synthesizer: `stopLoop()` and
`startLoop()` with its `setInterval` period (in seconds). -/
inductive SynthCmd
  | stopLoop
  | startLoop (stepSeconds : ℚ)
deriving DecidableEq, Repr

/-- `const beatDuration = 60 / this.tempo` (line 170), in seconds. -/
def beatDuration (tempo : ℚ) : ℚ := 60 / tempo

/-- `const stepDuration = beatDuration / 4` — 16th notes (line 201). -/
def stepDuration (tempo : ℚ) : ℚ := beatDuration tempo / 4

/-- `setTempo(newTempo)` (lines 96-102): store the tempo; when playing,
restart the clock (`stopLoop(); startLoop()`), the restarted loop ticking
every `stepDuration` seconds. -/
def setTempo (s : SynthState) (newTempo : ℚ) : SynthState × List SynthCmd :=
  let s1 := { s with tempo := newTempo }
  if s1.playbackState = PlaybackState.playing then
    (s1, [SynthCmd.stopLoop, SynthCmd.startLoop (stepDuration s1.tempo)])
  else (s1, [])

/-! ## Reconnect timing model

A small transition system refining `handleConnectionFailure` /
`attemptAutoReconnect` (lines 256-306) with explicit bookkeeping of the
`setTimeout` timers and the in-flight `reconnect()` attempt, so that
interleavings of failure events with timer firings can be examined.

Events: `failure` is any invocation of `handleConnectionFailure` (a
transport error or closure, or a failed attempt reported from outside);
`timerFire` is the scheduled timer callback starting — it clears
`isReconnecting` and then awaits `this.reconnect()` (line 292-293);
`resolveOk` is `reconnect()` resolving with a healthy session (the
`setupComplete` handler resets the retry state, lines 201-203);
`resolveFail` is `reconnect()` resolving unsuccessfully, upon which the
callback invokes `handleConnectionFailure` again (lines 297-304). -/
structure RState where
  retryCount : ℕ
  maxRetries : ℕ
  isReconnecting : Bool
  timersPending : ℕ
  attemptInFlight : Bool
  useFallback : Bool
deriving DecidableEq, Repr

/-- Events driving the reconnect subsystem. -/
inductive REvent
  | failure
  | timerFire
  | resolveOk
  | resolveFail
deriving DecidableEq, Repr

/-- The state effect of `handleFinalFailure` on the retry bookkeeping
(lines 313-317): `useFallback = true`, `retryCount = 0`,
`isReconnecting = false`.  No timer handle is stored by the code, so a
pending timer is not cancelled. -/
def rFinalFailure (s : RState) : RState :=
  { s with useFallback := true, retryCount := 0, isReconnecting := false }

/-- The state effect of `attemptAutoReconnect` (lines 275-289): bail out
while `isReconnecting`, else set the flag, bump the counter and schedule
one timer. -/
def rAttemptAutoReconnect (s : RState) : RState :=
  if s.isReconnecting then s
  else
    { s with isReconnecting := true, retryCount := s.retryCount + 1,
             timersPending := s.timersPending + 1 }

/-- The state effect of `handleConnectionFailure` (lines 256-270). -/
def rHandleConnectionFailure (s : RState) : RState :=
  if s.maxRetries ≤ s.retryCount then rFinalFailure s
  else rAttemptAutoReconnect s

/-- One event step of the reconnect subsystem. -/
def rStep (s : RState) : REvent → RState
  | REvent.failure => rHandleConnectionFailure s
  | REvent.timerFire =>
    if s.timersPending = 0 then s
    else
      { s with timersPending := s.timersPending - 1,
               isReconnecting := false, attemptInFlight := true }
  | REvent.resolveOk =>
    if s.attemptInFlight then
      { s with attemptInFlight := false, retryCount := 0,
               isReconnecting := false }
    else s
  | REvent.resolveFail =>
    if s.attemptInFlight then
      rHandleConnectionFailure { s with attemptInFlight := false }
    else s

/-- Run a sequence of reconnect events. -/
def rRun : RState → List REvent → RState
  | s, [] => s
  | s, e :: es => rRun (rStep s e) es

/-- The constructor state (lines 29-31): `retryCount = 0`,
`maxRetries = 5`, `isReconnecting = false`, nothing scheduled. -/
def rInit : RState :=
  { retryCount := 0, maxRetries := 5, isReconnecting := false,
    timersPending := 0, attemptInFlight := false, useFallback := false }

/-- A reconnect-event trace in which the fifth retry timer is still
pending when a stray duplicate failure event arrives (a dying socket can
fire both `onerror` and `onclose`), pushing the counter past the limit:
the final failure stores no timer handle and cancels nothing, so the
pending timer later fires, its attempt fails, and — the counter having
been reset to 0 — a fresh retry is scheduled after the fallback
switch. -/
def staleTimerTrace : List REvent :=
  [REvent.failure, REvent.timerFire, REvent.failure, REvent.timerFire,
   REvent.failure, REvent.timerFire, REvent.failure, REvent.timerFire,
   REvent.failure, REvent.failure, REvent.timerFire, REvent.resolveFail]

/-- Default `maxRetries = 5` (line 30). -/
def defaultMaxRetries : ℕ := 5

/-- The base backoff delay: `* 1000` milliseconds = 1 second (line 281). -/
def baseDelayMs : ℕ := 1000

/-- Discriminator for retry-scheduling emissions. -/
def isRetryEmit : Emit → Bool
  | Emit.scheduleRetry _ => true
  | _ => false

/-- Discriminator for error-event emissions. -/
def isErrorEmit : Emit → Bool
  | Emit.evErrorMsg _ => true
  | _ => false

/-! ## Sample states used by witnesses and counterexamples -/

/-- A service state in active remote playback: two stored prompts, one of
which has been rejected by the content filter. -/
def stPlaying : LMState :=
  { playbackState := PlaybackState.playing, nextStartTime := 2,
    prompts := [⟨"lofi", 1⟩, ⟨"banned", 1⟩], filteredPrompts := ["banned"],
    useFallback := false, activeEngine := Engine.lyria, retryCount := 0,
    maxRetries := 5, isReconnecting := false, connectionError := false,
    hasSession := true }

/-- `stPlaying` with the retry budget exhausted. -/
def stExhausted : LMState := { stPlaying with retryCount := 5 }

/-- `stPlaying` paused. -/
def stPaused : LMState := { stPlaying with playbackState := PlaybackState.paused }

/-- `stExhausted` stopped. -/
def stStoppedEx : LMState :=
  { stExhausted with playbackState := PlaybackState.stopped }

/-! ## Helper lemmas -/

/-- The scheduling argument never moves backwards: with nonnegative state
and clock, `schedArg st now` is at least `st`. -/
theorem schedArg_ge (st now : ℚ) (_hst : 0 ≤ st) (hnow : 0 ≤ now) :
    st ≤ schedArg st now := by
  unfold schedArg resetStart initStart
  have htol : (0 : ℚ) < behindTol := by norm_num [behindTol]
  have hbuf : (0 : ℚ) ≤ bufferTime := by norm_num [bufferTime]
  by_cases hz : st = 0
  · rw [if_pos hz]
    by_cases hr : now + bufferTime < now - behindTol
    · rw [if_pos hr]; linarith
    · rw [if_neg hr]; linarith
  · rw [if_neg hz]
    by_cases hr : st < now - behindTol
    · rw [if_pos hr]; linarith
    · rw [if_neg hr]

/-- All start times produced by `schedRun` lie at or after the incoming
`nextStartTime`, and all scheduled durations stay positive; the final
`nextStartTime` also does not move backwards. -/
theorem schedRun_lb (cs : List (ℚ × ℚ)) :
    ∀ st : ℚ, 0 ≤ st → (∀ c ∈ cs, 0 ≤ c.1 ∧ 0 < c.2) →
      st ≤ (schedRun st cs).1 ∧
        ∀ o ∈ (schedRun st cs).2, st ≤ o.1 ∧ 0 < o.2 := by
  induction cs with
  | nil => intro st _ _; exact ⟨le_rfl, by simp [schedRun]⟩
  | cons c cs ih =>
    intro st hst h
    obtain ⟨hc1, hc2⟩ := h c (List.mem_cons_self c cs)
    have harg : st ≤ schedArg st c.1 := schedArg_ge st c.1 hst hc1
    have hst' : st ≤ schedArg st c.1 + c.2 := by linarith
    have hst'0 : 0 ≤ schedArg st c.1 + c.2 := le_trans hst hst'
    have ihh := ih (schedArg st c.1 + c.2) hst'0
      (fun d hd => h d (List.mem_cons_of_mem c hd))
    constructor
    · show st ≤ (schedRun st (c :: cs)).1
      simp only [schedRun, schedStep]
      exact le_trans hst' ihh.1
    · intro o ho
      simp only [schedRun, schedStep] at ho
      rcases List.mem_cons.mp ho with rfl | ho
      · exact ⟨harg, hc2⟩
      · have hm := ihh.2 o ho
        exact ⟨le_trans hst' hm.1, hm.2⟩

/-- Successive scheduled chunks never overlap: each later start lies at or
after the earlier start plus the earlier duration. -/
theorem schedRun_pairwise (cs : List (ℚ × ℚ)) :
    ∀ st : ℚ, 0 ≤ st → (∀ c ∈ cs, 0 ≤ c.1 ∧ 0 < c.2) →
      List.Pairwise (fun a b => a.1 + a.2 ≤ b.1) (schedRun st cs).2 := by
  induction cs with
  | nil => intro st _ _; simp [schedRun]
  | cons c cs ih =>
    intro st hst h
    obtain ⟨hc1, hc2⟩ := h c (List.mem_cons_self c cs)
    have harg : st ≤ schedArg st c.1 := schedArg_ge st c.1 hst hc1
    have hst'0 : 0 ≤ schedArg st c.1 + c.2 := by linarith
    have hrest := fun d hd => h d (List.mem_cons_of_mem c hd)
    have hlb := (schedRun_lb cs (schedArg st c.1 + c.2) hst'0 hrest).2
    simp only [schedRun, schedStep]
    exact List.Pairwise.cons (fun o ho => (hlb o ho).1)
      (ih (schedArg st c.1 + c.2) hst'0 hrest)

/-- `pause` never touches the `useFallback` flag or the active engine. -/
theorem pause_engine (s : LMState) :
    (pause s).1.useFallback = s.useFallback ∧
    (pause s).1.activeEngine = s.activeEngine := by
  unfold pause setPlaybackState
  by_cases h : s.useFallback = true
  · rw [if_pos h]; exact ⟨rfl, rfl⟩
  · rw [if_neg h]; exact ⟨rfl, rfl⟩

/-- `setWeightedPrompts` never touches the `useFallback` flag or the
active engine. -/
theorem setWeightedPrompts_engine (s : LMState) (ps : List Prompt)
    (ok : Bool) :
    (setWeightedPrompts s ps ok).1.useFallback = s.useFallback ∧
    (setWeightedPrompts s ps ok).1.activeEngine = s.activeEngine := by
  simp only [setWeightedPrompts]
  split_ifs
  · exact ⟨rfl, rfl⟩
  · exact ⟨(pause_engine _).1, (pause_engine _).2⟩
  · exact ⟨rfl, rfl⟩
  · exact ⟨rfl, rfl⟩
  · exact ⟨(pause_engine _).1, (pause_engine _).2⟩

/-- A successful explicit `reconnect()` leaves the fallback engine: it
clears `useFallback` and sets the active engine back to 'lyria'. -/
theorem reconnectOp_success_engine (s : LMState) :
    (reconnectOp s true).1.useFallback = false ∧
    (reconnectOp s true).1.activeEngine = Engine.lyria := by
  unfold reconnectOp
  rw [if_pos rfl]
  dsimp only
  by_cases hw : s.playbackState = PlaybackState.playing
  · rw [if_pos hw]
    exact ⟨(setWeightedPrompts_engine _ _ _).1.trans rfl,
      (setWeightedPrompts_engine _ _ _).2.trans rfl⟩
  · rw [if_neg hw]
    exact ⟨(setWeightedPrompts_engine _ _ _).1.trans rfl,
      (setWeightedPrompts_engine _ _ _).2.trans rfl⟩

/-- With the fallback engaged, every user operation other than a
successful explicit reconnect keeps the fallback engaged, leaves the
active engine untouched, and schedules no reconnect. -/
theorem applyUser_fallback (s : LMState) (hfb : s.useFallback = true)
    (e : UserEvent) (he : e ≠ UserEvent.uReconnect true) :
    (applyUser s e).1.useFallback = true ∧
    (applyUser s e).1.activeEngine = s.activeEngine ∧
    ∀ d, Emit.scheduleRetry d ∉ (applyUser s e).2 := by
  cases e with
  | uPlay ok => simp [applyUser, play, hfb]
  | uPause => simp [applyUser, pause, hfb]
  | uStop => simp [applyUser, stop, hfb]
  | uPlayPause ok => simp [applyUser, playPause, hfb]
  | uSetPrompts ps ok => simp [applyUser, setWeightedPrompts, hfb]
  | uSetTempo bpm => simp [applyUser, setTempoLM, hfb]
  | uSetConfig => simp [applyUser, setMusicConfig, hfb]
  | uReconnect ok =>
    cases ok with
    | false => simp [applyUser, reconnectOp, hfb]
    | true => exact absurd rfl he

/-- With the fallback engaged, any sequence of user operations containing
no successful explicit reconnect keeps the active engine at `fallback`
and never schedules a reconnect. -/
theorem runUser_fallback (evs : List UserEvent) :
    ∀ s : LMState, s.useFallback = true → s.activeEngine = Engine.fallback →
      (∀ e ∈ evs, e ≠ UserEvent.uReconnect true) →
      (runUser s evs).1.useFallback = true ∧
      (runUser s evs).1.activeEngine = Engine.fallback ∧
      ∀ d, Emit.scheduleRetry d ∉ (runUser s evs).2 := by
  induction evs with
  | nil => intro s h1 h2 _; exact ⟨h1, h2, by simp [runUser]⟩
  | cons e es ih =>
    intro s h1 h2 hnr
    obtain ⟨k1, k2, k3⟩ := applyUser_fallback s h1 e
      (hnr e (List.mem_cons_self e es))
    obtain ⟨m1, m2, m3⟩ := ih (applyUser s e).1 k1 (k2.trans h2)
      (fun d hd => hnr d (List.mem_cons_of_mem e hd))
    refine ⟨by simpa [runUser] using m1, by simpa [runUser] using m2, ?_⟩
    intro d hd
    simp only [runUser, List.mem_append] at hd
    rcases hd with h | h
    · exact k3 d h
    · exact m3 d h

/-- One step preserves the invariant "the `isReconnecting` flag implies a
pending retry timer". -/
theorem rStep_inv (s : RState) (e : REvent)
    (h : s.isReconnecting = true → 0 < s.timersPending) :
    (rStep s e).isReconnecting = true → 0 < (rStep s e).timersPending := by
  cases e with
  | failure =>
    simp only [rStep, rHandleConnectionFailure, rFinalFailure,
      rAttemptAutoReconnect]
    by_cases hm : s.maxRetries ≤ s.retryCount
    · simp [hm]
    · by_cases hr : s.isReconnecting
      · simp only [if_neg hm, if_pos hr]; exact h
      · simp [hm, hr]
  | timerFire =>
    simp only [rStep]
    by_cases hz : s.timersPending = 0
    · simp only [if_pos hz]; exact h
    · simp [hz]
  | resolveOk =>
    simp only [rStep]
    by_cases ha : s.attemptInFlight
    · simp [ha]
    · simp only [if_neg ha]; exact h
  | resolveFail =>
    simp only [rStep, rHandleConnectionFailure, rFinalFailure,
      rAttemptAutoReconnect]
    by_cases ha : s.attemptInFlight
    · by_cases hm : s.maxRetries ≤ s.retryCount
      · simp [ha, hm]
      · by_cases hr : s.isReconnecting
        · simp only [if_pos ha, if_neg hm, if_pos hr]; exact h
        · simp [ha, hm, hr]
    · simp only [if_neg ha]; exact h

/-- Any trace of reconnect events preserves the invariant "the
`isReconnecting` flag implies a pending retry timer". -/
theorem rRun_inv (evs : List REvent) :
    ∀ s : RState, (s.isReconnecting = true → 0 < s.timersPending) →
      ((rRun s evs).isReconnecting = true → 0 < (rRun s evs).timersPending) := by
  induction evs with
  | nil => intro s h; simpa [rRun] using h
  | cons e es ih =>
    intro s h
    simp only [rRun]
    exact ih _ (rStep_inv s e h)

/-! ## Claim theorems -/

/-- C3: in `processAudioChunks`, the first chunk (with `nextStartTime`
zero) sets `nextStartTime` to `now + bufferTime` before scheduling; each
chunk effectively starts on the device at `max(nextStartTime, now)` (the
device clamps a past start time to now); after scheduling, `nextStartTime`
becomes the scheduled start plus exactly the chunk's duration; and
whenever `nextStartTime` has fallen more than 0.1s behind the current
time, the scheduling time is reset to `now`. -/
theorem c3_chunk_scheduling (st now dur : ℚ) :
    (st = 0 → initStart st now = now + bufferTime) ∧
    effStart (schedArg st now) now = max (initStart st now) now ∧
    (schedStep st (now, dur)).1 = schedArg st now + dur ∧
    (initStart st now < now - behindTol → schedArg st now = now) := by
  have htol : (0 : ℚ) < behindTol := by norm_num [behindTol]
  refine ⟨fun h => by rw [initStart, if_pos h], ?_, rfl,
    fun h => by rw [schedArg, resetStart, if_pos h]⟩
  unfold effStart schedArg resetStart
  by_cases hr : initStart st now < now - behindTol
  · rw [if_pos hr, max_self]
    have hlt : initStart st now < now := by linarith
    rw [max_eq_right hlt.le]
  · rw [if_neg hr]

/-- C3 witness: the scheduling contract evaluated at a first chunk
arriving at time 5 with duration 2. -/
theorem c3_chunk_scheduling_witness :
    ((0 : ℚ) = 0 → initStart 0 5 = 5 + bufferTime) ∧
    effStart (schedArg 0 5) 5 = max (initStart 0 5) 5 ∧
    (schedStep 0 ((5 : ℚ), (2 : ℚ))).1 = schedArg 0 5 + 2 ∧
    (initStart 0 5 < 5 - behindTol → schedArg 0 5 = 5) :=
  c3_chunk_scheduling 0 5 2

/-- C6: for every sequence of chunks enqueued in arrival order — under any
arrival timing with nonnegative clock values and positive durations — the
scheduled `[start, start + duration)` intervals are pairwise
non-overlapping: each chunk's start lies at or beyond the previous start
plus its duration, so no point in time belongs to two intervals. -/
theorem c6_no_overlap (chunks : List (ℚ × ℚ))
    (h : ∀ c ∈ chunks, 0 ≤ c.1 ∧ 0 < c.2) :
    List.Pairwise (fun a b => a.1 + a.2 ≤ b.1) (schedRun 0 chunks).2 ∧
    List.Pairwise
      (fun a b : ℚ × ℚ => ∀ x : ℚ,
        ¬(a.1 ≤ x ∧ x < a.1 + a.2 ∧ b.1 ≤ x ∧ x < b.1 + b.2))
      (schedRun 0 chunks).2 := by
  have hp := schedRun_pairwise chunks 0 le_rfl h
  refine ⟨hp, hp.imp ?_⟩
  intro a b hab x hx
  obtain ⟨h1, h2, h3, h4⟩ := hx
  linarith

/-- C6 witness: two chunks, the second arriving after a long starvation
gap (so the reset fires), still yield disjoint intervals. -/
theorem c6_no_overlap_witness :
    List.Pairwise (fun a b => a.1 + a.2 ≤ b.1)
      (schedRun 0 [((0 : ℚ), (2 : ℚ)), (10, 3)]).2 ∧
    List.Pairwise
      (fun a b : ℚ × ℚ => ∀ x : ℚ,
        ¬(a.1 ≤ x ∧ x < a.1 + a.2 ∧ b.1 ≤ x ∧ x < b.1 + b.2))
      (schedRun 0 [((0 : ℚ), (2 : ℚ)), (10, 3)]).2 :=
  c6_no_overlap [(0, 2), (10, 3)] (by decide)

/-- C10: a batch of audio chunks arriving while the playback state is
'paused' or 'stopped' is discarded whole: nothing is scheduled and the
state — in particular `nextStartTime` and the playback state — is
unchanged. -/
theorem c10_discard_when_inactive (s : LMState) (chunks : List Chunk)
    (h : s.playbackState = PlaybackState.paused ∨
      s.playbackState = PlaybackState.stopped) :
    processAudioChunks s chunks = (s, []) := by
  unfold processAudioChunks
  rw [if_pos h]

/-- C10 witness: a data-bearing chunk arriving while paused is dropped. -/
theorem c10_discard_when_inactive_witness :
    processAudioChunks stPaused [⟨true, 0, 1⟩] = (stPaused, []) :=
  c10_discard_when_inactive stPaused [⟨true, 0, 1⟩] (Or.inl rfl)

/-- C2: with no retry already in flight, a connection failure arriving
with the counter at `k < maxRetries` schedules exactly one retry, after a
backoff of `2^k * baseDelay` milliseconds; with the default
`maxRetries = 5` and `baseDelay = 1000` ms this yields the delay sequence
1, 2, 4, 8, 16 seconds; a failure arriving with the counter at
`maxRetries` schedules no retry and reports exhaustion (error event,
permanent fallback switch) instead. -/
theorem c2_backoff (s : LMState) (reason : String)
    (hflag : s.isReconnecting = false) :
    (s.retryCount < s.maxRetries →
      ((handleConnectionFailure s reason).2.filter isRetryEmit) =
        [Emit.scheduleRetry (2 ^ s.retryCount * baseDelayMs)]) ∧
    (s.maxRetries ≤ s.retryCount →
      ((handleConnectionFailure s reason).2.filter isRetryEmit) = [] ∧
      (handleConnectionFailure s reason).1.useFallback = true ∧
      Emit.evErrorMsg reason ∈ (handleConnectionFailure s reason).2) ∧
    (List.range defaultMaxRetries).map (fun k => 2 ^ k * baseDelayMs) =
      [1000, 2000, 4000, 8000, 16000] := by
  refine ⟨fun hlt => ?_, fun hge => ?_, by decide⟩
  · unfold handleConnectionFailure attemptAutoReconnect
    rw [if_neg (by simpa using Nat.not_le.mpr hlt)]
    simp [hflag, isRetryEmit, baseDelayMs]
  · unfold handleConnectionFailure handleFinalFailure setPlaybackState
    rw [if_pos (by simpa using hge)]
    by_cases hp : s.playbackState = PlaybackState.playing ∨
        s.playbackState = PlaybackState.loading
    · simp [hp, isRetryEmit]
    · simp [hp, isRetryEmit]

/-- C2 witness: the backoff contract evaluated on a quiescent playing
state with the counter at 0. -/
theorem c2_backoff_witness :
    (stPlaying.retryCount < stPlaying.maxRetries →
      ((handleConnectionFailure stPlaying "closed").2.filter isRetryEmit) =
        [Emit.scheduleRetry (2 ^ stPlaying.retryCount * baseDelayMs)]) ∧
    (stPlaying.maxRetries ≤ stPlaying.retryCount →
      ((handleConnectionFailure stPlaying "closed").2.filter isRetryEmit) = [] ∧
      (handleConnectionFailure stPlaying "closed").1.useFallback = true ∧
      Emit.evErrorMsg "closed" ∈ (handleConnectionFailure stPlaying "closed").2) ∧
    (List.range defaultMaxRetries).map (fun k => 2 ^ k * baseDelayMs) =
      [1000, 2000, 4000, 8000, 16000] :=
  c2_backoff stPlaying "closed" rfl

/-- C5: a PromptSet submitted while playing whose filtered active subset
(positive weight, text not in the filtered registry) is empty causes a
transition to 'paused' with exactly one error event; a submission with a
non-empty active subset while playing emits no error and does not
pause. -/
theorem c5_empty_active_pauses (s : LMState) (ps : List Prompt)
    (hfb : s.useFallback = false)
    (hplay : s.playbackState = PlaybackState.playing) :
    (activeSubset s.filteredPrompts ps = [] →
      (setWeightedPrompts s ps true).1.playbackState = PlaybackState.paused ∧
      ((setWeightedPrompts s ps true).2.filter isErrorEmit) =
        [Emit.evErrorMsg promptRequiredMsg]) ∧
    (activeSubset s.filteredPrompts ps ≠ [] →
      ((setWeightedPrompts s ps true).2.filter isErrorEmit) = [] ∧
      (setWeightedPrompts s ps true).1.playbackState =
        PlaybackState.playing) := by
  constructor
  · intro hempty
    unfold setWeightedPrompts pause setPlaybackState
    rw [if_neg (by simpa using hfb), if_pos ⟨by simpa using hempty, by simpa using hplay⟩,
      if_neg (by simpa using hfb)]
    by_cases hs : s.hasSession
    · simp [hs, isErrorEmit]
    · simp [hs, isErrorEmit]
  · intro hne
    unfold setWeightedPrompts
    rw [if_neg (by simpa using hfb),
      if_neg (by simp; intro h; exact absurd h (by simpa using hne))]
    by_cases hs : s.hasSession
    · rw [if_neg (by simpa using hs), if_pos rfl]
      simp [isErrorEmit, hplay]
    · rw [if_pos (by simpa using hs)]
      simp [isErrorEmit, hplay]

/-- C5 witness: in `stPlaying`, submitting only the filtered prompt
pauses with one error; submitting an unfiltered prompt does neither. -/
theorem c5_empty_active_pauses_witness :
    (activeSubset stPlaying.filteredPrompts [⟨"banned", 1⟩] = [] →
      (setWeightedPrompts stPlaying [⟨"banned", 1⟩] true).1.playbackState =
        PlaybackState.paused ∧
      ((setWeightedPrompts stPlaying [⟨"banned", 1⟩] true).2.filter isErrorEmit) =
        [Emit.evErrorMsg promptRequiredMsg]) ∧
    (activeSubset stPlaying.filteredPrompts [⟨"banned", 1⟩] ≠ [] →
      ((setWeightedPrompts stPlaying [⟨"banned", 1⟩] true).2.filter isErrorEmit) = [] ∧
      (setWeightedPrompts stPlaying [⟨"banned", 1⟩] true).1.playbackState =
        PlaybackState.playing) :=
  c5_empty_active_pauses stPlaying [⟨"banned", 1⟩] rfl rfl

/-- C4 (amended): every set of weighted prompts forwarded to the remote
session via `setWeightedPrompts` contains only prompts whose text is not
in the filtered-prompt registry and whose weight is strictly positive;
`play()`, however, forwards the stored PromptSet verbatim — whenever the
stored prompts are non-empty, the exact unfiltered list is sent on
(re)establishing the session. -/
theorem c4_prompt_filtering (s : LMState) (ps : List Prompt) (remoteOk : Bool)
    (hfb : s.useFallback = false) :
    (∀ l, Emit.sessSetPrompts l ∈ (setWeightedPrompts s ps remoteOk).2 →
      ∀ tw ∈ l, s.filteredPrompts.contains tw.1 = false ∧ 0 < tw.2) ∧
    (s.prompts ≠ [] →
      Emit.sessSetPrompts (s.prompts.map fun q => (q.text, q.weight)) ∈
        (play s true).2) := by
  constructor
  · intro l hl tw htw
    simp only [setWeightedPrompts] at hl
    split_ifs at hl
    · simp at hl
    · exfalso
      by_cases hs : s.hasSession <;>
        simp [pause, setPlaybackState, hfb, hs] at hl
    · simp at hl
    · simp only [List.mem_singleton, Emit.sessSetPrompts.injEq] at hl
      subst hl
      rw [List.mem_map] at htw
      obtain ⟨p, hp, rfl⟩ := htw
      rw [activeSubset, List.mem_filter] at hp
      obtain ⟨-, hpred⟩ := hp
      rw [Bool.and_eq_true] at hpred
      exact ⟨by simpa using hpred.1, of_decide_eq_true hpred.2⟩
    · exfalso
      by_cases hs : s.hasSession <;>
        simp [pause, setPlaybackState, hfb, hs] at hl
  · intro hne
    simp [play, setPlaybackState, hfb, hne]

/-- C4 counterexample: in `stPlaying` the text "banned" is in the
filtered registry, yet `play()` forwards it to the session again — the
claim that prompts forwarded on `play()` never include a filtered text is
false. -/
theorem c4_counterexample :
    stPlaying.filteredPrompts.contains "banned" = true ∧
    Emit.sessSetPrompts [("lofi", 1), ("banned", 1)] ∈
      (play stPlaying true).2 := by decide

/-- C4 witness: the filtering contract evaluated on `stPlaying` with a
fresh single-prompt submission. -/
theorem c4_prompt_filtering_witness :
    (∀ l, Emit.sessSetPrompts l ∈
        (setWeightedPrompts stPlaying [⟨"piano", 1⟩] true).2 →
      ∀ tw ∈ l, stPlaying.filteredPrompts.contains tw.1 = false ∧ 0 < tw.2) ∧
    (stPlaying.prompts ≠ [] →
      Emit.sessSetPrompts (stPlaying.prompts.map fun q => (q.text, q.weight)) ∈
        (play stPlaying true).2) :=
  c4_prompt_filtering stPlaying [⟨"piano", 1⟩] true rfl

/-- C7 (amended): the play/pause request pauses when the state is already
'playing'; from 'stopped' or 'paused' it runs `play()`, establishing or
resuming the session; issued while 'loading' it aborts and stops
(state 'stopped', no `session.play()` issued) rather than starting a
second session. -/
theorem c7_playPause_transitions (s : LMState) (ok : Bool)
    (hfb : s.useFallback = false) :
    (s.playbackState = PlaybackState.playing →
      playPause s ok = pause s ∧
      (playPause s ok).1.playbackState = PlaybackState.paused) ∧
    ((s.playbackState = PlaybackState.paused ∨
        s.playbackState = PlaybackState.stopped) →
      playPause s ok = play s ok) ∧
    (s.playbackState = PlaybackState.loading →
      playPause s ok = stop s ∧
      (playPause s ok).1.playbackState = PlaybackState.stopped ∧
      Emit.sessPlay ∉ (playPause s ok).2) := by
  refine ⟨fun h => ?_, fun h => ?_, fun h => ?_⟩
  · unfold playPause
    rw [if_neg (by simpa using hfb), h]
    refine ⟨rfl, ?_⟩
    unfold pause
    rw [if_neg (by simpa using hfb)]
    rfl
  · rcases h with h | h <;>
      (unfold playPause; rw [if_neg (by simpa using hfb), h])
  · unfold playPause
    rw [if_neg (by simpa using hfb), h]
    refine ⟨rfl, ?_, ?_⟩
    · unfold stop
      rw [if_neg (by simpa using hfb)]
      rfl
    · unfold stop
      rw [if_neg (by simpa using hfb)]
      by_cases hs : s.hasSession <;> simp [hs, setPlaybackState]

/-- C7 counterexample: in `stPlaying` (state 'playing') the play/pause
request is not a no-op — it changes the state, landing in 'paused'. -/
theorem c7_counterexample :
    stPlaying.playbackState = PlaybackState.playing ∧
    (playPause stPlaying true).1 ≠ stPlaying ∧
    (playPause stPlaying true).1.playbackState = PlaybackState.paused := by
  decide

/-- C7 witness: the transition contract evaluated on `stPlaying`. -/
theorem c7_playPause_transitions_witness :
    (stPlaying.playbackState = PlaybackState.playing →
      playPause stPlaying true = pause stPlaying ∧
      (playPause stPlaying true).1.playbackState = PlaybackState.paused) ∧
    ((stPlaying.playbackState = PlaybackState.paused ∨
        stPlaying.playbackState = PlaybackState.stopped) →
      playPause stPlaying true = play stPlaying true) ∧
    (stPlaying.playbackState = PlaybackState.loading →
      playPause stPlaying true = stop stPlaying ∧
      (playPause stPlaying true).1.playbackState = PlaybackState.stopped ∧
      Emit.sessPlay ∉ (playPause stPlaying true).2) :=
  c7_playPause_transitions stPlaying true rfl

/-- A fallback synthesizer state currently playing at 90 bpm. -/
def synPlaying : SynthState :=
  { tempo := 90, playbackState := PlaybackState.playing }

/-- C9: setting the tempo while the fallback engine is playing restarts
its internal loop immediately (stop then start of the clock), the
restarted loop stepping in 16th notes of `60 / (4 * tempo)` seconds, and
subsequent beat timing is `60 / tempo` seconds per beat exactly — at
tempo 120, 0.5 seconds per beat and 0.125 seconds per step; setting the
tempo while not playing only stores the value, without restarting. -/
theorem c9_tempo_restart (s : SynthState) (bpm : ℚ) :
    (s.playbackState = PlaybackState.playing →
      (setTempo s bpm).2 =
        [SynthCmd.stopLoop, SynthCmd.startLoop (60 / (4 * bpm))] ∧
      beatDuration (setTempo s bpm).1.tempo = 60 / bpm) ∧
    (s.playbackState ≠ PlaybackState.playing →
      (setTempo s bpm).1 = { s with tempo := bpm } ∧
      (setTempo s bpm).2 = []) ∧
    beatDuration 120 = 1 / 2 ∧ stepDuration 120 = 1 / 8 := by
  refine ⟨fun h => ?_, fun h => ?_, by norm_num [beatDuration],
    by norm_num [stepDuration, beatDuration]⟩
  · unfold setTempo
    rw [if_pos (by simpa using h)]
    have harg : (60 : ℚ) / bpm / 4 = 60 / (4 * bpm) := by
      rw [div_div, mul_comm]
    exact ⟨by simp [stepDuration, beatDuration, harg], rfl⟩
  · unfold setTempo
    rw [if_neg (by simpa using h)]
    exact ⟨rfl, rfl⟩

/-- C9 witness: the tempo contract evaluated at `synPlaying` and 120 bpm. -/
theorem c9_tempo_restart_witness :
    (synPlaying.playbackState = PlaybackState.playing →
      (setTempo synPlaying 120).2 =
        [SynthCmd.stopLoop, SynthCmd.startLoop (60 / (4 * 120))] ∧
      beatDuration (setTempo synPlaying 120).1.tempo = 60 / 120) ∧
    (synPlaying.playbackState ≠ PlaybackState.playing →
      (setTempo synPlaying 120).1 = { synPlaying with tempo := 120 } ∧
      (setTempo synPlaying 120).2 = []) ∧
    beatDuration 120 = 1 / 2 ∧ stepDuration 120 = 1 / 8 :=
  c9_tempo_restart synPlaying 120

/-- C1 (amended): a connection failure arriving with the retry counter
already at `maxRetries` switches the active engine to 'fallback' and
schedules no retry; the switch persists across every sequence of
subsequent user operations that contains no successful explicit reconnect
request — but it is not permanent: the fallback-mode Reconnect button's
`reconnect()`, when it succeeds, returns the engine to 'lyria' and clears
`useFallback` (and `handleFinalFailure` stores no timer handle, so a
retry timer pending at the moment of the final failure is not
cancelled).  If playback was 'playing' or 'loading', the stored PromptSet
(but no ParameterSet — none is replayed) is forwarded to the fallback
engine, which starts immediately; from 'stopped' nothing is replayed and
the state stays 'stopped'. -/
theorem c1_final_fallback (s : LMState) (reason : String)
    (evs : List UserEvent) (hmax : s.maxRetries ≤ s.retryCount) :
    (handleConnectionFailure s reason).1.activeEngine = Engine.fallback ∧
    (handleConnectionFailure s reason).1.useFallback = true ∧
    ((handleConnectionFailure s reason).2.filter isRetryEmit) = [] ∧
    ((∀ e ∈ evs, e ≠ UserEvent.uReconnect true) →
      (runUser (handleConnectionFailure s reason).1 evs).1.activeEngine =
        Engine.fallback ∧
      (runUser (handleConnectionFailure s reason).1 evs).1.useFallback =
        true ∧
      ∀ d, Emit.scheduleRetry d ∉
        (runUser (handleConnectionFailure s reason).1 evs).2) ∧
    ((applyUser (handleConnectionFailure s reason).1
        (UserEvent.uReconnect true)).1.useFallback = false ∧
      (applyUser (handleConnectionFailure s reason).1
        (UserEvent.uReconnect true)).1.activeEngine = Engine.lyria) ∧
    (∀ t : RState, (rFinalFailure t).timersPending = t.timersPending) ∧
    ((s.playbackState = PlaybackState.playing ∨
        s.playbackState = PlaybackState.loading) →
      Emit.fbSetPrompts s.prompts ∈ (handleConnectionFailure s reason).2 ∧
      Emit.fbPlay ∈ (handleConnectionFailure s reason).2 ∧
      (handleConnectionFailure s reason).1.playbackState =
        PlaybackState.playing) ∧
    (s.playbackState = PlaybackState.stopped →
      (handleConnectionFailure s reason).1.playbackState =
        PlaybackState.stopped) := by
  have hcf : handleConnectionFailure s reason =
      handleFinalFailure { s with hasSession := false } reason := by
    unfold handleConnectionFailure
    dsimp only
    rw [if_pos hmax]
  rw [hcf]
  unfold handleFinalFailure setPlaybackState
  dsimp only
  by_cases hp : s.playbackState = PlaybackState.playing ∨
      s.playbackState = PlaybackState.loading
  · rw [if_pos hp]
    refine ⟨rfl, rfl, ?_, fun hnr => ⟨?_, ?_, ?_⟩, ⟨?_, ?_⟩, fun t => rfl,
      fun _ => ⟨by simp, by simp, rfl⟩, fun hstop => ?_⟩
    · by_cases hs : s.hasSession <;> simp [hs, isRetryEmit]
    · exact (runUser_fallback evs _ rfl rfl hnr).2.1
    · exact (runUser_fallback evs _ rfl rfl hnr).1
    · exact (runUser_fallback evs _ rfl rfl hnr).2.2
    · exact (reconnectOp_success_engine _).1
    · exact (reconnectOp_success_engine _).2
    · rw [hstop] at hp
      rcases hp with h | h <;> cases h
  · rw [if_neg hp]
    refine ⟨rfl, rfl,
      by by_cases hs : s.hasSession <;> simp [hs, isRetryEmit],
      fun hnr => ⟨?_, ?_, ?_⟩, ⟨?_, ?_⟩, fun t => rfl,
      fun hpl => absurd hpl hp, fun _ => rfl⟩
    · exact (runUser_fallback evs _ rfl rfl hnr).2.1
    · exact (runUser_fallback evs _ rfl rfl hnr).1
    · exact (runUser_fallback evs _ rfl rfl hnr).2.2
    · exact (reconnectOp_success_engine _).1
    · exact (reconnectOp_success_engine _).2

/-- C1 counterexample: at exhaustion from the 'playing' state the
commands replayed into the fallback engine are the stored prompts only —
no parameter replay ever occurs (no `fbSetParams` is emitted) — and from
'stopped' not even the PromptSet is replayed, refuting "the stored
PromptSet and ParameterSet are replayed into the fallback engine".  The
permanence clause is also refuted: a subsequent successful user
`reconnect()` leaves the fallback engine (`useFallback = false`, engine
'lyria'), and on `staleTimerTrace` a retry timer pending at the final
failure later fires and a fresh retry is scheduled
(`timersPending = 1`, flag set) with `useFallback` already true. -/
theorem c1_counterexample :
    stExhausted.maxRetries ≤ stExhausted.retryCount ∧
    stExhausted.playbackState = PlaybackState.playing ∧
    Emit.fbSetPrompts stExhausted.prompts ∈
      (handleConnectionFailure stExhausted "gone").2 ∧
    Emit.fbSetParams ∉ (handleConnectionFailure stExhausted "gone").2 ∧
    Emit.fbSetPrompts stStoppedEx.prompts ∉
      (handleConnectionFailure stStoppedEx "gone").2 ∧
    (runUser (handleConnectionFailure stExhausted "gone").1
      [UserEvent.uReconnect true]).1.useFallback = false ∧
    (runUser (handleConnectionFailure stExhausted "gone").1
      [UserEvent.uReconnect true]).1.activeEngine = Engine.lyria ∧
    (rRun rInit staleTimerTrace).useFallback = true ∧
    (rRun rInit staleTimerTrace).timersPending = 1 ∧
    (rRun rInit staleTimerTrace).isReconnecting = true := by decide

/-- C1 witness: the amended final-failure contract evaluated at
`stExhausted` followed by one further play request. -/
theorem c1_final_fallback_witness :
    (handleConnectionFailure stExhausted "gone").1.activeEngine =
      Engine.fallback ∧
    (handleConnectionFailure stExhausted "gone").1.useFallback = true ∧
    ((handleConnectionFailure stExhausted "gone").2.filter isRetryEmit) = [] ∧
    ((∀ e ∈ [UserEvent.uPlay true], e ≠ UserEvent.uReconnect true) →
      (runUser (handleConnectionFailure stExhausted "gone").1
        [UserEvent.uPlay true]).1.activeEngine = Engine.fallback ∧
      (runUser (handleConnectionFailure stExhausted "gone").1
        [UserEvent.uPlay true]).1.useFallback = true ∧
      ∀ d, Emit.scheduleRetry d ∉
        (runUser (handleConnectionFailure stExhausted "gone").1
          [UserEvent.uPlay true]).2) ∧
    ((applyUser (handleConnectionFailure stExhausted "gone").1
        (UserEvent.uReconnect true)).1.useFallback = false ∧
      (applyUser (handleConnectionFailure stExhausted "gone").1
        (UserEvent.uReconnect true)).1.activeEngine = Engine.lyria) ∧
    (∀ t : RState, (rFinalFailure t).timersPending = t.timersPending) ∧
    ((stExhausted.playbackState = PlaybackState.playing ∨
        stExhausted.playbackState = PlaybackState.loading) →
      Emit.fbSetPrompts stExhausted.prompts ∈
        (handleConnectionFailure stExhausted "gone").2 ∧
      Emit.fbPlay ∈ (handleConnectionFailure stExhausted "gone").2 ∧
      (handleConnectionFailure stExhausted "gone").1.playbackState =
        PlaybackState.playing) ∧
    (stExhausted.playbackState = PlaybackState.stopped →
      (handleConnectionFailure stExhausted "gone").1.playbackState =
        PlaybackState.stopped) :=
  c1_final_fallback stExhausted "gone" [UserEvent.uPlay true] (by decide)

/-- C8 (amended): a new failure arriving while the `isReconnecting` flag
is set never schedules another retry timer; the flag is set exactly when
a timer is scheduled (and, along every trace, a set flag implies a timer
is still pending) — but the flag is cleared when the timer fires, before
the reconnect attempt resolves, so a failure arriving while the attempt
itself is unresolved schedules a fresh retry. -/
theorem c8_retry_guard (s : RState) (evs : List REvent) :
    (s.isReconnecting = true →
      (rStep s REvent.failure).timersPending = s.timersPending) ∧
    (s.isReconnecting = false → s.retryCount < s.maxRetries →
      (rStep s REvent.failure).timersPending = s.timersPending + 1 ∧
      (rStep s REvent.failure).isReconnecting = true) ∧
    (0 < s.timersPending →
      (rStep s REvent.timerFire).isReconnecting = false ∧
      (rStep s REvent.timerFire).attemptInFlight = true ∧
      (rStep s REvent.timerFire).timersPending = s.timersPending - 1) ∧
    ((s.isReconnecting = true → 0 < s.timersPending) →
      (rRun s evs).isReconnecting = true → 0 < (rRun s evs).timersPending) := by
  refine ⟨fun h => ?_, fun h1 h2 => ?_, fun h => ?_,
    fun h => rRun_inv evs s h⟩
  · simp only [rStep, rHandleConnectionFailure, rFinalFailure,
      rAttemptAutoReconnect]
    by_cases hm : s.maxRetries ≤ s.retryCount
    · rw [if_pos hm]
    · rw [if_neg hm, if_pos h]
  · simp only [rStep, rHandleConnectionFailure, rAttemptAutoReconnect]
    rw [if_neg (Nat.not_le.mpr h2), if_neg (by simp [h1])]
    exact ⟨rfl, rfl⟩
  · simp only [rStep]
    rw [if_neg (Nat.pos_iff_ne_zero.mp h)]
    exact ⟨rfl, rfl, rfl⟩

/-- C8 counterexample: starting from the initial state, a failure
schedules a retry; when its timer fires the attempt is in flight and
unresolved, yet `isReconnecting` is already false — and a failure
arriving at that point schedules a second retry (a fresh pending timer,
attempt counter at 2) while the first is still unresolved.  This refutes
both "a new failure arriving while a retry is pending (scheduled but not
yet resolved) never schedules a second retry" and "the reconnecting flag
is true exactly while a retry is in flight". -/
theorem c8_counterexample :
    (rRun rInit [REvent.failure, REvent.timerFire]).attemptInFlight = true ∧
    (rRun rInit [REvent.failure, REvent.timerFire]).isReconnecting = false ∧
    (rRun rInit
      [REvent.failure, REvent.timerFire, REvent.failure]).timersPending = 1 ∧
    (rRun rInit
      [REvent.failure, REvent.timerFire, REvent.failure]).attemptInFlight =
      true ∧
    (rRun rInit
      [REvent.failure, REvent.timerFire, REvent.failure]).retryCount = 2 := by
  decide

/-- C8 witness: the amended retry-guard contract evaluated at the initial
state with a single failure event. -/
theorem c8_retry_guard_witness :
    (rInit.isReconnecting = true →
      (rStep rInit REvent.failure).timersPending = rInit.timersPending) ∧
    (rInit.isReconnecting = false → rInit.retryCount < rInit.maxRetries →
      (rStep rInit REvent.failure).timersPending = rInit.timersPending + 1 ∧
      (rStep rInit REvent.failure).isReconnecting = true) ∧
    (0 < rInit.timersPending →
      (rStep rInit REvent.timerFire).isReconnecting = false ∧
      (rStep rInit REvent.timerFire).attemptInFlight = true ∧
      (rStep rInit REvent.timerFire).timersPending =
        rInit.timersPending - 1) ∧
    ((rInit.isReconnecting = true → 0 < rInit.timersPending) →
      (rRun rInit [REvent.failure]).isReconnecting = true →
      0 < (rRun rInit [REvent.failure]).timersPending) :=
  c8_retry_guard rInit [REvent.failure]

end LyriaDJ
